import Mathlib

/-!
Nairobi livability index model (`src/app.js`)

A shallow embedding of the Earth Engine script `src/app.js`: the raster
algebra it uses, the proxy-label expression, the band stacks used for training
and prediction, the train/test split and the cross-validation folds.

Modelling conventions.
* A pixel is a position of the common grid; a raster maps each pixel to
  `some v` (a value) or `none` (masked).
* A number is a rational; the arithmetic of the image operations is IEEE 754
  double precision: a literal is the double nearest to it, and a sum, a
  difference or a product is the exact result rounded to the nearest double
  (`double`). Comparisons are exact. The thresholds of the collection filters
  are the numbers as written.
* The external collaborators of the script (asset rasters, the terrain
  operator, the random image generator, the stratified sampler, the
  random-column generator and the wall clock) are fields of `Inputs`.
-/

namespace Livability

/-! ## Rasters and images -/

/-- Position of a pixel in the common grid. -/
abbrev Pixel := ℕ

/-- Single-band grid of values; `none` is a masked pixel. -/
abbrev Raster := Pixel → Option ℚ

/-- Named band of an image: its values and its footprint, the part of the grid
the band covers. -/
structure Band where
  name : String
  data : Raster
  footprint : Pixel → Bool := fun _ => true

/-- Earth Engine image: an ordered list of named bands. -/
abbrev Image := List Band

/-! ## Double precision -/

/-- Nearest integer, ties to the even one. -/
def roundHalfEven (q : ℚ) : ℤ :=
  if q - ⌊q⌋ < 1 / 2 then ⌊q⌋
  else if q - ⌊q⌋ > 1 / 2 then ⌊q⌋ + 1
  else if ⌊q⌋ % 2 = 0 then ⌊q⌋ else ⌊q⌋ + 1

/-- Binary exponent of a non-zero number: the `e` with `2 ^ e ≤ |x| < 2 ^ (e + 1)`. -/
def binaryExponent (x : ℚ) : ℤ := Int.log 2 |x|

/-- The IEEE 754 double nearest to `x`: round to nearest, ties to even, with a
53-bit significand and gradual underflow below `2 ^ (-1022)`. A result of
magnitude `2 ^ 1024` or more stands for an infinity. -/
def double (x : ℚ) : ℚ :=
  if x = 0 then 0
  else roundHalfEven (x / 2 ^ (max (binaryExponent x) (-1022) - 52)) *
    2 ^ (max (binaryExponent x) (-1022) - 52)

namespace ee

/-- Earth Engine `image.bandNames()`. -/
def bandNames (img : Image) : List String := img.map Band.name

/-- Earth Engine `image.select(i)`: the image made of the band at position `i`. -/
def select (img : Image) (i : ℕ) : Image := img[i]?.toList

/-- Earth Engine `image.rename(name)` on a single-band image (all bands get the names of the
list, position by position). -/
def rename (img : Image) (names : List String) : Image :=
  List.zipWith (fun b n => { b with name := n }) img names

/-- Earth Engine `image.clip(aoi)`: pixels outside the region are masked and
the footprint is cut to the region. -/
def clip (img : Image) (aoi : Pixel → Bool) : Image :=
  img.map fun b =>
    { b with
      data := fun p => if aoi p then b.data p else none
      footprint := fun p => b.footprint p && aoi p }

/-- Earth Engine `image.unmask(v)` with the default `sameFootprint`: masked
pixels inside the footprint get the double `v`, the footprint is kept. -/
def unmask (img : Image) (v : ℚ) : Image :=
  img.map fun b =>
    { b with
      data := fun p => if b.footprint p then some ((b.data p).getD (double v)) else b.data p }

/-- Earth Engine `image.subtract(c)` with a constant, in double precision. -/
def subtract (img : Image) (c : ℚ) : Image :=
  img.map fun b => { b with data := fun p => (b.data p).map fun v => double (v - double c) }

/-- Earth Engine `image.multiply(c)` with a constant, in double precision. -/
def multiply (img : Image) (c : ℚ) : Image :=
  img.map fun b => { b with data := fun p => (b.data p).map fun v => double (v * double c) }

/-- Earth Engine `ee.Image(c)`: the constant image, one band named `constant`. -/
def constant (c : ℚ) : Image := [{ name := "constant", data := fun _ => some (double c) }]

/-- Earth Engine `image.addBands(src)`: the bands of `src` are appended in order; a band
whose name is already present gets the suffix `_1`. -/
def addBands (img src : Image) : Image :=
  src.foldl
    (fun acc b =>
      acc ++ [if b.name ∈ bandNames acc then { b with name := b.name ++ "_1" } else b])
    img

/-- Earth Engine `ee.Image.cat(list)`: one image with the bands of all the images, in order. -/
def cat (imgs : List Image) : Image := imgs.foldl addBands []

/-- Value cast of `toByte`: integer part, clamped to `0..255`. -/
def toByteValue (q : ℚ) : ℚ := ((max 0 (min 255 ⌊q⌋) : ℤ) : ℚ)

/-- Earth Engine `image.toByte()`. -/
def toByte (img : Image) : Image :=
  img.map fun b => { b with data := fun p => (b.data p).map toByteValue }

/-- Value of the first band of an image at a pixel. -/
def value (img : Image) (p : Pixel) : Option ℚ := img.head?.bind fun b => b.data p

/-- Value of the band called `n` at a pixel. -/
def bandValue (img : Image) (n : String) (p : Pixel) : Option ℚ :=
  (img.find? fun b => b.name == n).bind fun b => b.data p

/-- Abstract syntax of the image expressions the script uses. -/
inductive Expr where
  | lit (q : ℚ)
  | var (name : String)
  | gt (a b : Expr)
  | lt (a b : Expr)
  | and (a b : Expr)
  | add (a b : Expr)
  | cond (c t e : Expr)

/-- Per-pixel value of an expression in double precision: a literal is the
double nearest to it, a sum is rounded to the nearest double, comparisons and
`&&` give 1 or 0, the ternary picks by a non-zero condition, and a masked
operand masks the result. -/
def Expr.eval (env : String → Option ℚ) : Expr → Option ℚ
  | .lit q => some (double q)
  | .var n => env n
  | .gt a b => do
      let x ← a.eval env
      let y ← b.eval env
      pure (if x > y then 1 else 0)
  | .lt a b => do
      let x ← a.eval env
      let y ← b.eval env
      pure (if x < y then 1 else 0)
  | .and a b => do
      let x ← a.eval env
      let y ← b.eval env
      pure (if x ≠ 0 ∧ y ≠ 0 then 1 else 0)
  | .add a b => do
      let x ← a.eval env
      let y ← b.eval env
      pure (double (x + y))
  | .cond c t e => do
      let x ← c.eval env
      let y ← t.eval env
      let z ← e.eval env
      pure (if x ≠ 0 then y else z)

/-- Earth Engine `image.expression(e, map)`: the expression evaluated pixel by pixel, each
variable bound to the image the map gives it. The result has one band. -/
def expression (img : Image) (e : Expr) (map : List (String × Image)) : Image :=
  [{ name := (img.head?.map Band.name).getD "constant",
     data := fun p => e.eval fun n => (map.lookup n).bind fun i => value i p }]

end ee

/-- Feature of a collection: its `system:index` and its properties. -/
structure Feature where
  index : ℕ
  properties : List (String × ℚ)

/-- Earth Engine `feature.get(name)`. -/
def Feature.get (f : Feature) (name : String) : Option ℚ := f.properties.lookup name

/-- Earth Engine `feature.set(name, v)`. -/
def Feature.set (f : Feature) (name : String) (v : ℚ) : Feature :=
  { f with properties := (name, v) :: f.properties.filter fun kv => kv.1 != name }

/-- Feature collection. -/
abbrev FeatureCollection := List Feature

/-- Right-hand value of a filter: the script passes numbers and, once, a
feature collection. -/
inductive Operand where
  | number (q : ℚ)
  | collection (fc : FeatureCollection)

namespace ee

/-- The filters the script builds. -/
inductive Filter where
  | lt (name : String) (value : Operand)
  | gte (name : String) (value : Operand)
  | neq (name : String) (value : Operand)

/-- Whether a feature passes a filter. A property is a number: it is compared
with a number by value, it is never less than, at least or equal to an object
that is not a number, and `neq` is the negation of equality. -/
def Filter.test : Filter → Feature → Bool
  | .lt name (.number q), f =>
      match f.get name with
      | some x => decide (x < q)
      | none => false
  | .lt _ (.collection _), _ => false
  | .gte name (.number q), f =>
      match f.get name with
      | some x => decide (x ≥ q)
      | none => false
  | .gte _ (.collection _), _ => false
  | .neq name (.number q), f =>
      match f.get name with
      | some x => decide (x ≠ q)
      | none => true
  | .neq _ (.collection _), _ => true

/-- Earth Engine `collection.filter(f)`. -/
def filter (fc : FeatureCollection) (flt : Filter) : FeatureCollection :=
  List.filter flt.test fc

/-- Earth Engine `collection.size()`. -/
def size (fc : FeatureCollection) : ℕ := fc.length

/-- Earth Engine `ee.List.sequence(a, b)`: the numbers `a, a + 1, ..., b`. -/
def sequence (a b : ℕ) : List ℕ := List.range' a (b + 1 - a)

end ee

/-! ## The script -/

/-- External collaborators of the script. -/
structure Inputs where
  /-- Region mask of `nairobi.geometry()`. -/
  aoi : Pixel → Bool
  /-- Asset `projects/ee-123456788/assets/NDVI`. -/
  assetNDVI : Image
  /-- Asset `projects/ee-123456788/assets/LST`. -/
  assetLST : Image
  /-- Asset `projects/ee-123456788/assets/NDBI`. -/
  assetNDBI : Image
  /-- Band `elevation` of `USGS/SRTMGL1_003`. -/
  elevation : Raster
  /-- Operator `ee.Terrain.slope`, giving the values of its one band. -/
  terrainSlope : Image → Raster
  /-- Population density band of the GPW image the script selects. -/
  population : Raster
  /-- Generator `ee.Image.random(seed)`: one band of values in `[0,1)`. -/
  random : ℕ → Raster
  /-- Reading of `Date.now()` when the script runs. -/
  now : ℕ
  /-- Sampler `image.stratifiedSample` with arguments `numPoints`, `classBand`,
  `scale` and `seed`. -/
  stratifiedSample : Image → ℕ → String → ℕ → ℕ → List Feature
  /-- Number that `randomColumn` gives to a feature under a seed. -/
  randomValue : ℕ → Feature → ℚ

section Script

variable (inp : Inputs)

def NDVI : Image := ee.clip (ee.rename (ee.select inp.assetNDVI 0) ["NDVI"]) inp.aoi

def LST_K : Image := ee.clip (ee.rename (ee.select inp.assetLST 0) ["LST_K"]) inp.aoi

def NDBI : Image := ee.clip (ee.rename (ee.select inp.assetNDBI 0) ["NDBI"]) inp.aoi

def LST : Image := ee.rename (ee.subtract (LST_K inp) 273.15) ["LST_C"]

def dem : Image := ee.clip [{ name := "elevation", data := inp.elevation }] inp.aoi

def slope : Image :=
  ee.rename
    ((dem inp).map fun b => { b with name := "slope", data := inp.terrainSlope (dem inp) })
    ["Slope"]

def pop : Image :=
  ee.rename (ee.clip [{ name := "population_density", data := inp.population }] inp.aoi)
    ["Pop_Density"]

def inputStack : Image :=
  ee.unmask (ee.cat [NDVI inp, LST inp, NDBI inp, slope inp, pop inp]) 0

/-- Seed handed to `ee.Image.random`: `ee.Number(Date.now())`. -/
def noiseSeed : ℕ := inp.now

def noise : Image :=
  ee.multiply
    (ee.clip (ee.rename [{ name := "random", data := inp.random (noiseSeed inp) }] ["Noise"])
      inp.aoi)
    0.05

/-- The expression string of `livability_class`, parsed. -/
def livabilityExpr : ee.Expr :=
  .cond (.and (.gt (.var "NDVI") (.lit 0.5)) (.lt (.var "NDBI") (.lit 0.3)))
    (.lit 3)
    (.cond
      (.and (.gt (.var "NDVI") (.add (.lit 0.3) (.var "Noise")))
        (.lt (.var "NDBI") (.add (.lit 0.4) (.var "Noise"))))
      (.lit 2)
      (.lit 1))

def livability_class : Image :=
  ee.clip
    (ee.rename
      (ee.toByte
        (ee.expression (ee.addBands (ee.addBands (NDVI inp) (NDBI inp)) (noise inp))
          livabilityExpr
          [("NDVI", NDVI inp), ("NDBI", NDBI inp), ("Noise", noise inp)]))
      ["Class"])
    inp.aoi

def trainingImage : Image :=
  ee.addBands (ee.addBands (inputStack inp) (noise inp)) (livability_class inp)

def bands : List String := ["NDVI", "LST_C", "NDBI", "Slope", "Pop_Density", "Noise"]

def predictionStack : Image :=
  ee.unmask (ee.cat [NDVI inp, LST inp, NDBI inp, slope inp, pop inp]) 0

def constantNoise : Image := ee.clip (ee.rename (ee.constant 0.0) ["Noise"]) inp.aoi

def finalStack : Image := ee.addBands (predictionStack inp) (constantNoise inp)

def SAMPLES_COUNT : ℕ := 7500

def samples : FeatureCollection :=
  inp.stratifiedSample (trainingImage inp) SAMPLES_COUNT "Class" 30 42

/-- Earth Engine `collection.randomColumn(name, seed)`. -/
def randomColumn (fc : FeatureCollection) (name : String) (seed : ℕ) : FeatureCollection :=
  fc.map fun f => f.set name (inp.randomValue seed f)

def withRandom : FeatureCollection := randomColumn inp (samples inp) "random" 42

def trainSet : FeatureCollection := ee.filter (withRandom inp) (.lt "random" (.number 0.7))

def testSet : FeatureCollection := ee.filter (withRandom inp) (.gte "random" (.number 0.7))

def k : ℕ := 5

/-- Validation subset of fold `i` (the variable `fold` inside `foldResults`). -/
def fold (i : ℕ) : FeatureCollection :=
  ee.filter (ee.filter (withRandom inp) (.lt "random" (.number (((i : ℚ) + 1) / k))))
    (.gte "random" (.number ((i : ℚ) / k)))

/-- Training subset of fold `i` (the variable `trainFold` inside `foldResults`). -/
def trainFold (i : ℕ) : FeatureCollection :=
  ee.filter (withRandom inp) (.neq "random" (.collection (fold inp i)))

/-- Fold indices the cross-validation maps over: `ee.List.sequence(0, k - 1)`. -/
def foldIndices : List ℕ := ee.sequence 0 (k - 1)

end Script

/-! ## Toy scenario -/

/-- Raster storing, at the pixels 0, 1, ..., the doubles nearest to the numbers
of a list; masked elsewhere. -/
def rasterOfList (xs : List ℚ) : Raster := fun p => xs[p]?.map double

/-- Inputs of a toy run: NDVI and NDBI rasters given by lists, a random image
with the double `r` at every pixel, clock reading `t`, the sampler returning
`fs` and the random column giving `rv i` to the feature of index `i`. -/
def toyInputs (ndvi ndbi : List ℚ) (r : ℚ) (t : ℕ) (fs : FeatureCollection) (rv : ℕ → ℚ) :
    Inputs where
  aoi := fun _ => true
  assetNDVI := [{ name := "b1", data := rasterOfList ndvi }]
  assetLST := [{ name := "b1", data := fun _ => some 300 }]
  assetNDBI := [{ name := "b1", data := rasterOfList ndbi }]
  elevation := fun _ => some 1700
  terrainSlope := fun _ _ => some 0
  population := fun _ => some 0
  random := fun _ _ => some (double r)
  now := t
  stratifiedSample := fun _ _ _ _ _ => fs
  randomValue := fun _ f => rv f.index

/-- The 4-pixel toy raster of the end-to-end scenario, noise fixed at 0. -/
def toyRaster : Inputs :=
  toyInputs [0.6, 0.35, 0.1, 0.4] [0.2, 0.35, 0.5, 0.2] 0 0 [] fun _ => 0

/-- Toy run at clock reading `t` with a random image whose value depends on the
seed: 0 under an even seed, 0.9 under an odd one. One pixel, NDVI 0.32 and
NDBI 0.2. -/
def clockRun (t : ℕ) : Inputs :=
  { toyInputs [0.32] [0.2] 0 t [] (fun _ => 0) with
    random := fun seed _ => some (double (if seed % 2 = 0 then 0 else 0.9)) }

/-- Toy run with one pixel storing NDVI 0.3015625 and NDBI 0.25, the random
image holding 1/32. -/
def roundingRun : Inputs := toyInputs [0.3015625] [0.25] (1 / 32) 0 [] fun _ => 0

/-- Toy run with one pixel storing NDVI 0.35 and NDBI 0.25, the random image
holding 0.9999999999999999, the largest double below 1. -/
def topNoiseRun : Inputs := toyInputs [0.35] [0.25] 0.9999999999999999 0 [] fun _ => 0

/-- A sample set of 100 samples, indices 0..99. -/
def hundredSamples : FeatureCollection :=
  (List.range 100).map fun i => { index := i, properties := [("Class", 1)] }

/-- Toy run whose sampler returns `hundredSamples` and whose random column gives
`i / 100` to sample `i`. -/
def hundredRun : Inputs := toyInputs [] [] 0 0 hundredSamples fun i => (i : ℚ) / 100

/-- Toy run with three samples whose random values are 0.1, 0.5 and 0.9. -/
def threeRun : Inputs :=
  toyInputs [] [] 0 0
    [{ index := 0, properties := [("Class", 1)] }, { index := 1, properties := [("Class", 2)] },
      { index := 2, properties := [("Class", 3)] }]
    fun i => ((4 * i + 1 : ℕ) : ℚ) / 10

/-- Toy run with one sample, of random value 0.1. -/
def leakRun : Inputs :=
  toyInputs [] [] 0 0 [{ index := 0, properties := [("Class", 1)] }] fun _ => 0.1

/-! ## Double precision: rounding lemmas -/

theorem roundHalfEven_le (q : ℚ) (m : ℤ) (h : q < m + 1 / 2) : roundHalfEven q ≤ m := by
  have h1 : (⌊q⌋ : ℚ) ≤ q := Int.floor_le q
  unfold roundHalfEven
  split_ifs with a b c
  · have : (⌊q⌋ : ℚ) < m + 1 / 2 := lt_of_le_of_lt h1 h
    have h3 : (⌊q⌋ : ℚ) < (m : ℚ) + 1 := by linarith
    have h4 : ⌊q⌋ < m + 1 := by exact_mod_cast h3
    omega
  · have h3 : (⌊q⌋ : ℚ) < (m : ℚ) := by linarith
    have h4 : ⌊q⌋ < m := by exact_mod_cast h3
    omega
  · have h3 : (⌊q⌋ : ℚ) < (m : ℚ) := by linarith
    have h4 : ⌊q⌋ < m := by exact_mod_cast h3
    omega
  · have h3 : (⌊q⌋ : ℚ) < (m : ℚ) := by linarith
    have h4 : ⌊q⌋ < m := by exact_mod_cast h3
    omega

theorem le_roundHalfEven (q : ℚ) (m : ℤ) (h : (m : ℚ) - 1 / 2 < q) : m ≤ roundHalfEven q := by
  have h1 : q < (⌊q⌋ : ℚ) + 1 := Int.lt_floor_add_one q
  unfold roundHalfEven
  split_ifs with a b c
  · have h3 : (m : ℚ) < (⌊q⌋ : ℚ) + 1 := by linarith
    have h4 : m < ⌊q⌋ + 1 := by exact_mod_cast h3
    omega
  · have h3 : (m : ℚ) < (⌊q⌋ : ℚ) + 2 := by linarith
    have h4 : m < ⌊q⌋ + 2 := by exact_mod_cast h3
    omega
  · have h3 : (m : ℚ) < (⌊q⌋ : ℚ) + 1 := by linarith
    have h4 : m < ⌊q⌋ + 1 := by exact_mod_cast h3
    omega
  · have h3 : (m : ℚ) < (⌊q⌋ : ℚ) + 2 := by linarith
    have h4 : m < ⌊q⌋ + 2 := by exact_mod_cast h3
    omega

theorem roundHalfEven_eq (q : ℚ) (m : ℤ) (h1 : (m : ℚ) - 1 / 2 < q) (h2 : q < m + 1 / 2) :
    roundHalfEven q = m :=
  le_antisymm (roundHalfEven_le q m h2) (le_roundHalfEven q m h1)

theorem binaryExponent_eq (x : ℚ) (e : ℤ) (h1 : (2 : ℚ) ^ e ≤ |x|) (h2 : |x| < 2 ^ (e + 1)) :
    binaryExponent x = e := by
  have hpos : 0 < |x| := lt_of_lt_of_le (by positivity) h1
  have a : e ≤ Int.log 2 |x| := (Int.zpow_le_iff_le_log (by norm_num) hpos).1 (by exact_mod_cast h1)
  have b : Int.log 2 |x| < e + 1 :=
    (Int.lt_zpow_iff_log_lt (by norm_num) hpos).1 (by exact_mod_cast h2)
  unfold binaryExponent
  omega

/-- In the binade `[2 ^ e, 2 ^ (e + 1))` a double is a multiple of `2 ^ (e - 52)`. -/
theorem double_of_binade (x : ℚ) (e : ℤ) (he : -1022 ≤ e) (h1 : (2 : ℚ) ^ e ≤ |x|)
    (h2 : |x| < 2 ^ (e + 1)) :
    double x = roundHalfEven (x / 2 ^ (e - 52)) * 2 ^ (e - 52) := by
  have hx : x ≠ 0 := by
    intro h
    rw [h, abs_zero] at h1
    exact absurd h1 (not_le.2 (by positivity))
  unfold double
  rw [if_neg hx, binaryExponent_eq x e h1 h2, max_eq_left he]

theorem double_eq (x : ℚ) (e m : ℤ) (he : -1022 ≤ e) (h0 : 0 < x) (h1 : (2 : ℚ) ^ e ≤ x)
    (h2 : x < 2 ^ (e + 1)) (h3 : (m : ℚ) - 1 / 2 < x / 2 ^ (e - 52))
    (h4 : x / 2 ^ (e - 52) < m + 1 / 2) : double x = m * 2 ^ (e - 52) := by
  rw [double_of_binade x e he (by rwa [abs_of_pos h0]) (by rwa [abs_of_pos h0]),
    roundHalfEven_eq _ m h3 h4]

theorem double_zero : double 0 = 0 := by simp [double]

theorem double_0_3_idem : double (5404319552844595 / 2 ^ 54) = 5404319552844595 / 2 ^ 54 := by
  rw [double_eq (5404319552844595 / 2 ^ 54) (-2) 5404319552844595 (by norm_num) (by norm_num) (by norm_num)
    (by norm_num) (by norm_num) (by norm_num)]
  norm_num

theorem double_0_4_idem : double (7205759403792794 / 2 ^ 54) = 7205759403792794 / 2 ^ 54 := by
  rw [double_eq (7205759403792794 / 2 ^ 54) (-2) 7205759403792794 (by norm_num) (by norm_num) (by norm_num)
    (by norm_num) (by norm_num) (by norm_num)]
  norm_num

theorem double_0_5 : double (0.5) = 4503599627370496 / 2 ^ 53 := by
  rw [double_eq (0.5) (-1) 4503599627370496 (by norm_num) (by norm_num) (by norm_num)
    (by norm_num) (by norm_num) (by norm_num)]
  norm_num

theorem double_0_3 : double (0.3) = 5404319552844595 / 2 ^ 54 := by
  rw [double_eq (0.3) (-2) 5404319552844595 (by norm_num) (by norm_num) (by norm_num)
    (by norm_num) (by norm_num) (by norm_num)]
  norm_num

theorem double_0_4 : double (0.4) = 7205759403792794 / 2 ^ 54 := by
  rw [double_eq (0.4) (-2) 7205759403792794 (by norm_num) (by norm_num) (by norm_num)
    (by norm_num) (by norm_num) (by norm_num)]
  norm_num

theorem double_0_05 : double (0.05) = 7205759403792794 / 2 ^ 57 := by
  rw [double_eq (0.05) (-5) 7205759403792794 (by norm_num) (by norm_num) (by norm_num)
    (by norm_num) (by norm_num) (by norm_num)]
  norm_num

theorem double_0_6 : double (0.6) = 5404319552844595 / 2 ^ 53 := by
  rw [double_eq (0.6) (-1) 5404319552844595 (by norm_num) (by norm_num) (by norm_num)
    (by norm_num) (by norm_num) (by norm_num)]
  norm_num

theorem double_0_35 : double (0.35) = 6305039478318694 / 2 ^ 54 := by
  rw [double_eq (0.35) (-2) 6305039478318694 (by norm_num) (by norm_num) (by norm_num)
    (by norm_num) (by norm_num) (by norm_num)]
  norm_num

theorem double_0_1 : double (0.1) = 7205759403792794 / 2 ^ 56 := by
  rw [double_eq (0.1) (-4) 7205759403792794 (by norm_num) (by norm_num) (by norm_num)
    (by norm_num) (by norm_num) (by norm_num)]
  norm_num

theorem double_0_2 : double (0.2) = 7205759403792794 / 2 ^ 55 := by
  rw [double_eq (0.2) (-3) 7205759403792794 (by norm_num) (by norm_num) (by norm_num)
    (by norm_num) (by norm_num) (by norm_num)]
  norm_num

theorem double_0_32 : double (0.32) = 5764607523034235 / 2 ^ 54 := by
  rw [double_eq (0.32) (-2) 5764607523034235 (by norm_num) (by norm_num) (by norm_num)
    (by norm_num) (by norm_num) (by norm_num)]
  norm_num

theorem double_0_9 : double (0.9) = 8106479329266893 / 2 ^ 53 := by
  rw [double_eq (0.9) (-1) 8106479329266893 (by norm_num) (by norm_num) (by norm_num)
    (by norm_num) (by norm_num) (by norm_num)]
  norm_num

theorem double_0_25 : double (0.25) = 4503599627370496 / 2 ^ 54 := by
  rw [double_eq (0.25) (-2) 4503599627370496 (by norm_num) (by norm_num) (by norm_num)
    (by norm_num) (by norm_num) (by norm_num)]
  norm_num

theorem double_0_3015625 : double (0.3015625) = 5432467050515661 / 2 ^ 54 := by
  rw [double_eq (0.3015625) (-2) 5432467050515661 (by norm_num) (by norm_num) (by norm_num)
    (by norm_num) (by norm_num) (by norm_num)]
  norm_num

theorem double_inv_32 : double (1 / 32) = 4503599627370496 / 2 ^ 57 := by
  rw [double_eq (1 / 32) (-5) 4503599627370496 (by norm_num) (by norm_num) (by norm_num)
    (by norm_num) (by norm_num) (by norm_num)]
  norm_num

theorem double_top : double (0.9999999999999999) = 9007199254740991 / 2 ^ 53 := by
  rw [double_eq (0.9999999999999999) (-1) 9007199254740991 (by norm_num) (by norm_num) (by norm_num)
    (by norm_num) (by norm_num) (by norm_num)]
  norm_num

theorem double_0_45 : double (0.45) = 8106479329266893 / 2 ^ 54 := by
  rw [double_eq (0.45) (-2) 8106479329266893 (by norm_num) (by norm_num) (by norm_num)
    (by norm_num) (by norm_num) (by norm_num)]
  norm_num

theorem double_mul_0_9 : double (8106479329266893 / 2 ^ 53 * (7205759403792794 / 2 ^ 57)) = 6485183463413515 / 2 ^ 57 := by
  rw [double_eq (8106479329266893 / 2 ^ 53 * (7205759403792794 / 2 ^ 57)) (-5) 6485183463413515 (by norm_num) (by norm_num) (by norm_num)
    (by norm_num) (by norm_num) (by norm_num)]
  norm_num

theorem double_mul_inv_32 : double (4503599627370496 / 2 ^ 57 * (7205759403792794 / 2 ^ 57)) = 7205759403792794 / 2 ^ 62 := by
  rw [double_eq (4503599627370496 / 2 ^ 57 * (7205759403792794 / 2 ^ 57)) (-10) 7205759403792794 (by norm_num) (by norm_num) (by norm_num)
    (by norm_num) (by norm_num) (by norm_num)]
  norm_num

theorem double_mul_top : double (9007199254740991 / 2 ^ 53 * (7205759403792794 / 2 ^ 57)) = 7205759403792793 / 2 ^ 57 := by
  rw [double_eq (9007199254740991 / 2 ^ 53 * (7205759403792794 / 2 ^ 57)) (-5) 7205759403792793 (by norm_num) (by norm_num) (by norm_num)
    (by norm_num) (by norm_num) (by norm_num)]
  norm_num

theorem double_0_3_add_zero : double (5404319552844595 / 2 ^ 54 + 0) = 5404319552844595 / 2 ^ 54 := by
  rw [add_zero]
  exact double_0_3_idem

theorem double_0_3_add_0_9 : double (5404319552844595 / 2 ^ 54 + 6485183463413515 / 2 ^ 57) = 6214967485771284 / 2 ^ 54 := by
  rw [double_eq (5404319552844595 / 2 ^ 54 + 6485183463413515 / 2 ^ 57) (-2) 6214967485771284 (by norm_num) (by norm_num) (by norm_num)
    (by norm_num) (by norm_num) (by norm_num)]
  norm_num

theorem double_0_3_add_inv_32 : double (5404319552844595 / 2 ^ 54 + 7205759403792794 / 2 ^ 62) = 5432467050515661 / 2 ^ 54 := by
  rw [double_eq (5404319552844595 / 2 ^ 54 + 7205759403792794 / 2 ^ 62) (-2) 5432467050515661 (by norm_num) (by norm_num) (by norm_num)
    (by norm_num) (by norm_num) (by norm_num)]
  norm_num

theorem double_0_3_add_top : double (5404319552844595 / 2 ^ 54 + 7205759403792793 / 2 ^ 57) = 6305039478318694 / 2 ^ 54 := by
  rw [double_eq (5404319552844595 / 2 ^ 54 + 7205759403792793 / 2 ^ 57) (-2) 6305039478318694 (by norm_num) (by norm_num) (by norm_num)
    (by norm_num) (by norm_num) (by norm_num)]
  norm_num

theorem double_0_4_add_zero : double (7205759403792794 / 2 ^ 54 + 0) = 7205759403792794 / 2 ^ 54 := by
  rw [add_zero]
  exact double_0_4_idem

theorem double_0_4_add_0_9 : double (7205759403792794 / 2 ^ 54 + 6485183463413515 / 2 ^ 57) = 8016407336719483 / 2 ^ 54 := by
  rw [double_eq (7205759403792794 / 2 ^ 54 + 6485183463413515 / 2 ^ 57) (-2) 8016407336719483 (by norm_num) (by norm_num) (by norm_num)
    (by norm_num) (by norm_num) (by norm_num)]
  norm_num

theorem double_0_4_add_inv_32 : double (7205759403792794 / 2 ^ 54 + 7205759403792794 / 2 ^ 62) = 7233906901463860 / 2 ^ 54 := by
  rw [double_eq (7205759403792794 / 2 ^ 54 + 7205759403792794 / 2 ^ 62) (-2) 7233906901463860 (by norm_num) (by norm_num) (by norm_num)
    (by norm_num) (by norm_num) (by norm_num)]
  norm_num

theorem double_0_4_add_top : double (7205759403792794 / 2 ^ 54 + 7205759403792793 / 2 ^ 57) = 8106479329266893 / 2 ^ 54 := by
  rw [double_eq (7205759403792794 / 2 ^ 54 + 7205759403792793 / 2 ^ 57) (-2) 8106479329266893 (by norm_num) (by norm_num) (by norm_num)
    (by norm_num) (by norm_num) (by norm_num)]
  norm_num

theorem double_one : double 1 = 1 := by
  rw [double_eq 1 0 4503599627370496 (by norm_num) (by norm_num) (by norm_num)
    (by norm_num) (by norm_num) (by norm_num)]
  norm_num

theorem double_two : double 2 = 2 := by
  rw [double_eq 2 1 4503599627370496 (by norm_num) (by norm_num) (by norm_num)
    (by norm_num) (by norm_num) (by norm_num)]
  norm_num

theorem double_three : double 3 = 3 := by
  rw [double_eq 3 1 6755399441055744 (by norm_num) (by norm_num) (by norm_num)
    (by norm_num) (by norm_num) (by norm_num)]
  norm_num

/-- With a noise in `[0, double 0.05)` the rounded sum `0.3 + Noise` lies between
the doubles 0.3 and 0.35. -/
theorem double_add_0_3_bounds (n : ℚ) (h0 : 0 ≤ n) (h1 : n < double 0.05) :
    double 0.3 ≤ double (double 0.3 + n) ∧ double (double 0.3 + n) ≤ double 0.35 := by
  rw [double_0_05] at h1
  rw [double_0_3, double_0_35]
  have hs0 : (0 : ℚ) < 5404319552844595 / 2 ^ 54 + n := by positivity
  rw [double_of_binade _ (-2) (by norm_num)
    (by rw [abs_of_pos hs0]; norm_num at h1 ⊢; linarith)
    (by rw [abs_of_pos hs0]; norm_num at h1 ⊢; linarith)]
  have lo : (5404319552844595 : ℤ) ≤
      roundHalfEven ((5404319552844595 / 2 ^ 54 + n) / 2 ^ ((-2 : ℤ) - 52)) := by
    apply le_roundHalfEven
    norm_num at h1 ⊢
    linarith
  have hi : roundHalfEven ((5404319552844595 / 2 ^ 54 + n) / 2 ^ ((-2 : ℤ) - 52)) ≤
      (6305039478318694 : ℤ) := by
    apply roundHalfEven_le
    norm_num at h1 ⊢
    linarith
  have lo' : ((5404319552844595 : ℤ) : ℚ) ≤
      (roundHalfEven ((5404319552844595 / 2 ^ 54 + n) / 2 ^ ((-2 : ℤ) - 52)) : ℚ) := by
    exact_mod_cast lo
  have hi' : (roundHalfEven ((5404319552844595 / 2 ^ 54 + n) / 2 ^ ((-2 : ℤ) - 52)) : ℚ) ≤
      ((6305039478318694 : ℤ) : ℚ) := by
    exact_mod_cast hi
  constructor
  · norm_num at lo' ⊢
    linarith
  · norm_num at hi' ⊢
    linarith

/-- With a noise in `[0, double 0.05)` the rounded sum `0.4 + Noise` lies between
the doubles 0.4 and 0.45. -/
theorem double_add_0_4_bounds (n : ℚ) (h0 : 0 ≤ n) (h1 : n < double 0.05) :
    double 0.4 ≤ double (double 0.4 + n) ∧ double (double 0.4 + n) ≤ double 0.45 := by
  rw [double_0_05] at h1
  rw [double_0_4, double_0_45]
  have hs0 : (0 : ℚ) < 7205759403792794 / 2 ^ 54 + n := by positivity
  rw [double_of_binade _ (-2) (by norm_num)
    (by rw [abs_of_pos hs0]; norm_num at h1 ⊢; linarith)
    (by rw [abs_of_pos hs0]; norm_num at h1 ⊢; linarith)]
  have lo : (7205759403792794 : ℤ) ≤
      roundHalfEven ((7205759403792794 / 2 ^ 54 + n) / 2 ^ ((-2 : ℤ) - 52)) := by
    apply le_roundHalfEven
    norm_num at h1 ⊢
    linarith
  have hi : roundHalfEven ((7205759403792794 / 2 ^ 54 + n) / 2 ^ ((-2 : ℤ) - 52)) ≤
      (8106479329266893 : ℤ) := by
    apply roundHalfEven_le
    norm_num at h1 ⊢
    linarith
  have lo' : ((7205759403792794 : ℤ) : ℚ) ≤
      (roundHalfEven ((7205759403792794 / 2 ^ 54 + n) / 2 ^ ((-2 : ℤ) - 52)) : ℚ) := by
    exact_mod_cast lo
  have hi' : (roundHalfEven ((7205759403792794 / 2 ^ 54 + n) / 2 ^ ((-2 : ℤ) - 52)) : ℚ) ≤
      ((8106479329266893 : ℤ) : ℚ) := by
    exact_mod_cast hi
  constructor
  · norm_num at lo' ⊢
    linarith
  · norm_num at hi' ⊢
    linarith

/-! ## Proxy labels -/

theorem aoi_of_value_NDVI (inp : Inputs) (p : Pixel) (v : ℚ)
    (hv : ee.value (NDVI inp) p = some v) : inp.aoi p = true := by
  unfold NDVI ee.clip ee.rename ee.select ee.value at hv
  cases h : inp.assetNDVI[0]? with
  | none => simp [h] at hv
  | some b0 =>
    simp [h] at hv
    exact hv.1

theorem toByteValue_one : ee.toByteValue 1 = 1 := by
  simp [ee.toByteValue]

theorem toByteValue_two : ee.toByteValue 2 = 2 := by
  have h : ⌊(2 : ℚ)⌋ = 2 := by norm_num
  simp [ee.toByteValue, h]

theorem toByteValue_three : ee.toByteValue 3 = 3 := by
  have h : ⌊(3 : ℚ)⌋ = 3 := by norm_num
  simp [ee.toByteValue, h]

theorem eval_livabilityExpr (env : String → Option ℚ) (v b n : ℚ)
    (hv : env "NDVI" = some v) (hb : env "NDBI" = some b) (hn : env "Noise" = some n) :
    livabilityExpr.eval env =
      some (if v > double 0.5 ∧ b < double 0.3 then 3
        else if v > double (double 0.3 + n) ∧ b < double (double 0.4 + n) then 2 else 1) := by
  simp only [livabilityExpr, ee.Expr.eval, hv, hb, hn, Option.bind_eq_bind, Option.some_bind,
    Option.pure_def, bind_pure_comp, Option.map_some', pure, double_one, double_two,
    double_three]
  by_cases h1 : v > double 0.5 <;> by_cases h2 : b < double 0.3 <;>
    by_cases h3 : v > double (double 0.3 + n) <;>
    by_cases h4 : b < double (double 0.4 + n) <;> simp [h1, h2, h3, h4]

theorem value_livability_class (inp : Inputs) (p : Pixel) :
    ee.value (livability_class inp) p =
      if inp.aoi p then
        (livabilityExpr.eval fun n =>
          (List.lookup n [("NDVI", NDVI inp), ("NDBI", NDBI inp), ("Noise", noise inp)]).bind
            fun i => ee.value i p).map ee.toByteValue
      else none := rfl

theorem livability_class_value (inp : Inputs) (p : Pixel) (v b n : ℚ)
    (hv : ee.value (NDVI inp) p = some v) (hb : ee.value (NDBI inp) p = some b)
    (hn : ee.value (noise inp) p = some n) :
    ee.value (livability_class inp) p =
      some (if v > double 0.5 ∧ b < double 0.3 then 3
        else if v > double (double 0.3 + n) ∧ b < double (double 0.4 + n) then 2 else 1) := by
  have ha := aoi_of_value_NDVI inp p v hv
  rw [value_livability_class, if_pos ha,
    eval_livabilityExpr _ v b n (by simp [List.lookup, hv]) (by simp [List.lookup, hb])
      (by simp [List.lookup, hn])]
  split_ifs <;> simp [toByteValue_one, toByteValue_two, toByteValue_three]

theorem value_NDVI_toy (ndvi ndbi : List ℚ) (r : ℚ) (t : ℕ) (fs : FeatureCollection)
    (rv : ℕ → ℚ) (p : Pixel) :
    ee.value (NDVI (toyInputs ndvi ndbi r t fs rv)) p = ndvi[p]?.map double := by
  simp [NDVI, toyInputs, ee.value, ee.clip, ee.rename, ee.select, rasterOfList]

theorem value_NDBI_toy (ndvi ndbi : List ℚ) (r : ℚ) (t : ℕ) (fs : FeatureCollection)
    (rv : ℕ → ℚ) (p : Pixel) :
    ee.value (NDBI (toyInputs ndvi ndbi r t fs rv)) p = ndbi[p]?.map double := by
  simp [NDBI, toyInputs, ee.value, ee.clip, ee.rename, ee.select, rasterOfList]

theorem value_noise_toy (ndvi ndbi : List ℚ) (r : ℚ) (t : ℕ) (fs : FeatureCollection)
    (rv : ℕ → ℚ) (p : Pixel) :
    ee.value (noise (toyInputs ndvi ndbi r t fs rv)) p =
      some (double (double r * double 0.05)) := by
  simp [noise, toyInputs, ee.value, ee.clip, ee.rename, ee.multiply]

theorem noise_zero : double (double 0 * double 0.05) = 0 := by
  rw [double_zero, zero_mul, double_zero]

/-- C1, as stated, fails: at a pixel storing NDVI 0.3015625 and NDBI 0.25 with
the noise of the random value 1/32, rule 1 does not apply and
NDVI > 0.3 + Noise and NDBI < 0.4 + Noise hold for the exact sums (with 0.3 and
0.4 read as decimals or as doubles), so the stated rules give the label 2; the
code rounds 0.3 + Noise to the stored NDVI and gives the label 1. -/
theorem livability_rules_exact_sum_fails :
    ee.value (NDVI roundingRun) 0 = some (double 0.3015625) ∧
      ee.value (NDBI roundingRun) 0 = some (double 0.25) ∧
      ee.value (noise roundingRun) 0 = some (double (double (1 / 32) * double 0.05)) ∧
      ¬ (double 0.3015625 > 0.5 ∧ double 0.25 < 0.3) ∧
      (double 0.3015625 > 0.3 + double (double (1 / 32) * double 0.05) ∧
        double 0.25 < 0.4 + double (double (1 / 32) * double 0.05)) ∧
      (double 0.3015625 > double 0.3 + double (double (1 / 32) * double 0.05) ∧
        double 0.25 < double 0.4 + double (double (1 / 32) * double 0.05)) ∧
      double (double 0.3 + double (double (1 / 32) * double 0.05)) = double 0.3015625 ∧
      ee.value (livability_class roundingRun) 0 = some 1 := by
  have hv : ee.value (NDVI roundingRun) 0 = some (double 0.3015625) := by
    simp [roundingRun, value_NDVI_toy]
  have hb : ee.value (NDBI roundingRun) 0 = some (double 0.25) := by
    simp [roundingRun, value_NDBI_toy]
  have hn : ee.value (noise roundingRun) 0 =
      some (double (double (1 / 32) * double 0.05)) := by
    rw [roundingRun, value_noise_toy]
  have h := livability_class_value roundingRun 0 _ _ _ hv hb hn
  refine ⟨hv, hb, hn, ?_, ?_, ?_, ?_, ?_⟩
  · rw [double_0_3015625, double_0_25]
    norm_num
  · rw [double_0_3015625, double_0_25, double_inv_32, double_0_05, double_mul_inv_32]
    norm_num
  · rw [double_0_3015625, double_0_25, double_inv_32, double_0_05, double_mul_inv_32,
      double_0_3, double_0_4]
    norm_num
  · rw [double_inv_32, double_0_05, double_mul_inv_32, double_0_3, double_0_3_add_inv_32,
      double_0_3015625]
  · rw [h]
    rw [double_0_3015625, double_0_25, double_inv_32, double_0_05, double_mul_inv_32,
      double_0_3, double_0_4, double_0_5, double_0_3_add_inv_32, double_0_4_add_inv_32]
    norm_num

/-- C1, amended: at every pixel where NDVI, NDBI and Noise have the values `v`,
`b` and `n`, the label of `livability_class` is 3 when `v > 0.5` and `b < 0.3`,
otherwise 2 when `v` exceeds the double-precision sum of 0.3 and `n` and `b` is
below the double-precision sum of 0.4 and `n`, otherwise 1 (first match wins);
0.5, 0.3 and 0.4 are the doubles nearest to these literals, and the label is
one of 1, 2, 3. -/
theorem livability_class_rules (inp : Inputs) (p : Pixel) (v b n : ℚ)
    (hv : ee.value (NDVI inp) p = some v) (hb : ee.value (NDBI inp) p = some b)
    (hn : ee.value (noise inp) p = some n) :
    ee.value (livability_class inp) p =
        some (if v > double 0.5 ∧ b < double 0.3 then 3
          else if v > double (double 0.3 + n) ∧ b < double (double 0.4 + n) then 2 else 1) ∧
      (ee.value (livability_class inp) p = some 1 ∨
        ee.value (livability_class inp) p = some 2 ∨
        ee.value (livability_class inp) p = some 3) := by
  have h := livability_class_value inp p v b n hv hb hn
  refine ⟨h, ?_⟩
  rw [h]
  split_ifs <;> simp

theorem livability_class_rules_witness :
    ee.value (livability_class toyRaster) 1 =
        some (if double 0.35 > double 0.5 ∧ double 0.35 < double 0.3 then 3
          else if double 0.35 > double (double 0.3 + double (double 0 * double 0.05)) ∧
              double 0.35 < double (double 0.4 + double (double 0 * double 0.05)) then 2
            else 1) ∧
      (ee.value (livability_class toyRaster) 1 = some 1 ∨
        ee.value (livability_class toyRaster) 1 = some 2 ∨
        ee.value (livability_class toyRaster) 1 = some 3) :=
  livability_class_rules toyRaster 1 (double 0.35) (double 0.35)
    (double (double 0 * double 0.05))
    (by simp [toyRaster, value_NDVI_toy]) (by simp [toyRaster, value_NDBI_toy])
    (by rw [toyRaster, value_noise_toy])

/-- C5: on the 4-pixel toy raster (NDVI = [0.6, 0.35, 0.1, 0.4],
NDBI = [0.2, 0.35, 0.5, 0.2], noise 0) the labels are [3, 2, 1, 2]. -/
theorem toy_raster_labels :
    [0, 1, 2, 3].map (ee.value (livability_class toyRaster)) =
      [some 3, some 2, some 1, some 2] := by
  have hn : ∀ p, ee.value (noise toyRaster) p = some 0 := by
    intro p
    rw [toyRaster, value_noise_toy, noise_zero]
  have h0 := livability_class_value toyRaster 0 (double 0.6) (double 0.2) 0
    (by simp [toyRaster, value_NDVI_toy]) (by simp [toyRaster, value_NDBI_toy]) (hn 0)
  have h1 := livability_class_value toyRaster 1 (double 0.35) (double 0.35) 0
    (by simp [toyRaster, value_NDVI_toy]) (by simp [toyRaster, value_NDBI_toy]) (hn 1)
  have h2 := livability_class_value toyRaster 2 (double 0.1) (double 0.5) 0
    (by simp [toyRaster, value_NDVI_toy]) (by simp [toyRaster, value_NDBI_toy]) (hn 2)
  have h3 := livability_class_value toyRaster 3 (double 0.4) (double 0.2) 0
    (by simp [toyRaster, value_NDVI_toy]) (by simp [toyRaster, value_NDBI_toy]) (hn 3)
  rw [double_0_3, double_0_4, double_0_3_add_zero, double_0_4_add_zero, double_0_5] at h0 h1 h2 h3
  rw [double_0_6, double_0_2] at h0
  rw [double_0_35] at h1
  rw [double_0_1] at h2
  rw [double_0_2] at h3
  norm_num at h0 h1 h2 h3
  simp [h0, h1, h2, h3]

/-- C8: membership in class 3 does not depend on the noise: two runs with the
same NDVI and NDBI values at a pixel and any two noise values `n1`, `n2` agree
on whether the label is 3, and the label is 3 exactly when NDVI > 0.5 and
NDBI < 0.3 (the doubles nearest to these literals). -/
theorem class_three_noise_free (inp1 inp2 : Inputs) (p : Pixel) (v b n1 n2 : ℚ)
    (hv1 : ee.value (NDVI inp1) p = some v) (hb1 : ee.value (NDBI inp1) p = some b)
    (hn1 : ee.value (noise inp1) p = some n1)
    (hv2 : ee.value (NDVI inp2) p = some v) (hb2 : ee.value (NDBI inp2) p = some b)
    (hn2 : ee.value (noise inp2) p = some n2) :
    (ee.value (livability_class inp1) p = some 3 ↔
        ee.value (livability_class inp2) p = some 3) ∧
      (ee.value (livability_class inp1) p = some 3 ↔ (v > double 0.5 ∧ b < double 0.3)) := by
  have key : ∀ n : ℚ,
      (some (if v > double 0.5 ∧ b < double 0.3 then 3
          else if v > double (double 0.3 + n) ∧ b < double (double 0.4 + n) then 2 else 1)
          = some (3 : ℚ)) ↔ (v > double 0.5 ∧ b < double 0.3) := by
    intro n
    split_ifs with h1 h2 <;> simp [h1]
  rw [livability_class_value inp1 p v b n1 hv1 hb1 hn1,
    livability_class_value inp2 p v b n2 hv2 hb2 hn2, key n1, key n2]
  simp

theorem class_three_noise_free_witness :
    (ee.value (livability_class (toyInputs [0.6] [0.2] 0 0 [] fun _ => 0)) 0 = some 3 ↔
        ee.value (livability_class (toyInputs [0.6] [0.2] 0.9 1 [] fun _ => 0)) 0 = some 3) ∧
      (ee.value (livability_class (toyInputs [0.6] [0.2] 0 0 [] fun _ => 0)) 0 = some 3 ↔
        (double 0.6 > double 0.5 ∧ double 0.2 < double 0.3)) :=
  class_three_noise_free _ _ 0 (double 0.6) (double 0.2) (double (double 0 * double 0.05))
    (double (double 0.9 * double 0.05))
    (by simp [value_NDVI_toy]) (by simp [value_NDBI_toy]) (by rw [value_noise_toy])
    (by simp [value_NDVI_toy]) (by simp [value_NDBI_toy]) (by rw [value_noise_toy])

theorem value_noise (inp : Inputs) (p : Pixel) :
    ee.value (noise inp) p =
      if inp.aoi p then
        (inp.random (noiseSeed inp) p).map fun r => double (r * double 0.05)
      else none := by
  by_cases h : inp.aoi p <;> simp [noise, ee.value, ee.clip, ee.rename, ee.multiply, h]

/-- C10, as stated, fails: a pixel storing NDVI 0.35 and NDBI 0.25 meets
NDVI ≥ 0.35 and NDBI < 0.4, the noise of the largest random value below 1 lies
in `[0, 0.05)`, and the label is 1, neither 2 nor 3: the double-precision sum
0.3 + Noise equals the stored NDVI. -/
theorem jitter_band_fails_at_stored_threshold :
    ee.value (NDVI topNoiseRun) 0 = some (double 0.35) ∧
      ee.value (NDBI topNoiseRun) 0 = some (double 0.25) ∧
      ee.value (noise topNoiseRun) 0 =
        some (double (double 0.9999999999999999 * double 0.05)) ∧
      0 ≤ double (double 0.9999999999999999 * double 0.05) ∧
      double (double 0.9999999999999999 * double 0.05) < 0.05 ∧
      double 0.35 ≥ double 0.35 ∧ double 0.25 < 0.4 ∧ double 0.25 < double 0.4 ∧
      double (double 0.3 + double (double 0.9999999999999999 * double 0.05)) = double 0.35 ∧
      ee.value (livability_class topNoiseRun) 0 = some 1 := by
  have hv : ee.value (NDVI topNoiseRun) 0 = some (double 0.35) := by
    simp [topNoiseRun, value_NDVI_toy]
  have hb : ee.value (NDBI topNoiseRun) 0 = some (double 0.25) := by
    simp [topNoiseRun, value_NDBI_toy]
  have hn : ee.value (noise topNoiseRun) 0 =
      some (double (double 0.9999999999999999 * double 0.05)) := by
    rw [topNoiseRun, value_noise_toy]
  have h := livability_class_value topNoiseRun 0 _ _ _ hv hb hn
  refine ⟨hv, hb, hn, ?_, ?_, le_refl _, ?_, ?_, ?_, ?_⟩
  · rw [double_top, double_0_05, double_mul_top]
    norm_num
  · rw [double_top, double_0_05, double_mul_top]
    norm_num
  · rw [double_0_25]
    norm_num
  · rw [double_0_25, double_0_4]
    norm_num
  · rw [double_top, double_0_05, double_mul_top, double_0_3, double_0_3_add_top, double_0_35]
  · rw [h]
    rw [double_0_35, double_0_25, double_top, double_0_05, double_mul_top,
      double_0_3, double_0_4, double_0_5, double_0_3_add_top, double_0_4_add_top]
    norm_num

/-- C10, amended: for a noise value `n` with `0 ≤ n < 0.05`, a pixel with
NDVI ≤ 0.3 or NDBI ≥ 0.45 is labelled 1, and a pixel with NDVI > 0.35 (strictly)
and NDBI < 0.4 is labelled 2 or 3; the bounds are the doubles nearest to the
literals. -/
theorem jitter_band (inp : Inputs) (p : Pixel) (v b n : ℚ)
    (hv : ee.value (NDVI inp) p = some v) (hb : ee.value (NDBI inp) p = some b)
    (hn : ee.value (noise inp) p = some n) (h0 : 0 ≤ n) (h1 : n < double 0.05) :
    ((v ≤ double 0.3 ∨ b ≥ double 0.45) → ee.value (livability_class inp) p = some 1) ∧
      ((v > double 0.35 ∧ b < double 0.4) →
        ee.value (livability_class inp) p = some 2 ∨
          ee.value (livability_class inp) p = some 3) := by
  rw [livability_class_value inp p v b n hv hb hn]
  obtain ⟨lo3, hi3⟩ := double_add_0_3_bounds n h0 h1
  obtain ⟨lo4, hi4⟩ := double_add_0_4_bounds n h0 h1
  have c35 : double 0.3 < double 0.5 := by
    rw [double_0_3, double_0_5]
    norm_num
  have c43 : double 0.3 < double 0.45 := by
    rw [double_0_3, double_0_45]
    norm_num
  constructor
  · intro h
    have h3 : ¬ (v > double 0.5 ∧ b < double 0.3) := by
      rintro ⟨a, c⟩
      rcases h with h | h <;> linarith
    have h2 : ¬ (v > double (double 0.3 + n) ∧ b < double (double 0.4 + n)) := by
      rintro ⟨a, c⟩
      rcases h with h | h <;> linarith
    rw [if_neg h3, if_neg h2]
  · rintro ⟨a, c⟩
    have h2 : v > double (double 0.3 + n) ∧ b < double (double 0.4 + n) :=
      ⟨by linarith, by linarith⟩
    by_cases h3 : v > double 0.5 ∧ b < double 0.3
    · rw [if_pos h3]
      exact Or.inr rfl
    · rw [if_neg h3, if_pos h2]
      exact Or.inl rfl

theorem jitter_band_witness :
    ((double 0.6 ≤ double 0.3 ∨ double 0.2 ≥ double 0.45) →
        ee.value (livability_class (toyInputs [0.6] [0.2] 0.9 7 [] fun _ => 0)) 0 = some 1) ∧
      ((double 0.6 > double 0.35 ∧ double 0.2 < double 0.4) →
        ee.value (livability_class (toyInputs [0.6] [0.2] 0.9 7 [] fun _ => 0)) 0 = some 2 ∨
          ee.value (livability_class (toyInputs [0.6] [0.2] 0.9 7 [] fun _ => 0)) 0 =
            some 3) :=
  jitter_band _ 0 (double 0.6) (double 0.2) (double (double 0.9 * double 0.05))
    (by simp [value_NDVI_toy]) (by simp [value_NDBI_toy]) (by rw [value_noise_toy])
    (by rw [double_0_9, double_0_05, double_mul_0_9]; norm_num)
    (by rw [double_0_9, double_0_05, double_mul_0_9]; norm_num)

theorem double_nonneg (x : ℚ) (h : 0 ≤ x) : 0 ≤ double x := by
  unfold double
  split_ifs with hx
  · exact le_refl 0
  · have hu : (0 : ℚ) < 2 ^ (max (binaryExponent x) (-1022) - 52) := by positivity
    have hq : ((0 : ℤ) : ℚ) - 1 / 2 < x / 2 ^ (max (binaryExponent x) (-1022) - 52) := by
      have : 0 ≤ x / 2 ^ (max (binaryExponent x) (-1022) - 52) := div_nonneg h hu.le
      norm_num
      linarith
    have hm := le_roundHalfEven _ 0 hq
    have hm' : (0 : ℚ) ≤ (roundHalfEven (x / 2 ^ (max (binaryExponent x) (-1022) - 52)) : ℚ) := by
      exact_mod_cast hm
    exact mul_nonneg hm' hu.le

/-- A positive number below a power of two rounds to at most that power. -/
theorem double_le_zpow (x : ℚ) (E : ℤ) (hE : -1021 ≤ E) (h0 : 0 < x) (h1 : x < 2 ^ E) :
    double x ≤ 2 ^ E := by
  have hlog : binaryExponent x < E := by
    unfold binaryExponent
    rw [abs_of_pos h0]
    exact (Int.lt_zpow_iff_log_lt (by norm_num) h0).1 (by exact_mod_cast h1)
  have hx2 : x < 2 ^ (binaryExponent x + 1) := by
    have := Int.lt_zpow_succ_log_self (b := 2) (by norm_num) x
    unfold binaryExponent
    rw [abs_of_pos h0]
    exact_mod_cast this
  set e := max (binaryExponent x) (-1022) with he
  have he1 : binaryExponent x ≤ e := le_max_left _ _
  have he2 : e + 1 ≤ E := by
    have : e < E := max_lt hlog (by omega)
    omega
  have hu : (0 : ℚ) < 2 ^ (e - 52) := by positivity
  have hx3 : x < 2 ^ (e + 1) :=
    lt_of_lt_of_le hx2 (zpow_le_zpow_right₀ (by norm_num) (by omega))
  have hsplit : (2 : ℚ) ^ (e + 1) = 2 ^ (53 : ℤ) * 2 ^ (e - 52) := by
    rw [← zpow_add₀ (by norm_num : (2 : ℚ) ≠ 0)]
    congr 1
    ring
  have hq : x / 2 ^ (e - 52) < ((2 ^ 53 : ℤ) : ℚ) + 1 / 2 := by
    rw [div_lt_iff₀ hu]
    have : x < 2 ^ (53 : ℤ) * 2 ^ (e - 52) := by rwa [← hsplit]
    push_cast
    have h53 : (2 : ℚ) ^ (53 : ℤ) = 2 ^ 53 := by norm_num
    rw [h53] at this
    nlinarith
  have hm := roundHalfEven_le _ _ hq
  have hm' : (roundHalfEven (x / 2 ^ (e - 52)) : ℚ) ≤ ((2 ^ 53 : ℤ) : ℚ) := by
    exact_mod_cast hm
  have hd : double x = roundHalfEven (x / 2 ^ (e - 52)) * 2 ^ (e - 52) := by
    unfold double
    rw [if_neg (ne_of_gt h0)]
  rw [hd]
  calc (roundHalfEven (x / 2 ^ (e - 52)) : ℚ) * 2 ^ (e - 52)
      ≤ ((2 ^ 53 : ℤ) : ℚ) * 2 ^ (e - 52) := mul_le_mul_of_nonneg_right hm' hu.le
    _ = 2 ^ (e + 1) := by
        rw [hsplit]
        norm_num
    _ ≤ 2 ^ E := zpow_le_zpow_right₀ (by norm_num) he2

/-- The noise of a random value in `[0, 1)`, that is of at most the largest
double below 1, lies in `[0, 0.05)`. -/
theorem noise_range (inp : Inputs) (p : Pixel) (n : ℚ)
    (hgen : ∀ r, inp.random (noiseSeed inp) p = some r →
      0 ≤ r ∧ r ≤ double 0.9999999999999999)
    (hn : ee.value (noise inp) p = some n) : 0 ≤ n ∧ n < double 0.05 := by
  rw [value_noise] at hn
  by_cases h : inp.aoi p
  · rw [if_pos h] at hn
    cases hr : inp.random (noiseSeed inp) p with
    | none => simp [hr] at hn
    | some r =>
      obtain ⟨h0, h1⟩ := hgen r hr
      simp only [hr, Option.map_some', Option.some.injEq] at hn
      subst hn
      rw [double_top] at h1
      rw [double_0_05]
      have hx0 : 0 ≤ r * (7205759403792794 / 2 ^ 57) := by positivity
      refine ⟨double_nonneg _ hx0, ?_⟩
      rcases lt_or_le (r * (7205759403792794 / 2 ^ 57)) (2 ^ (-5 : ℤ)) with hs | hs
      · rcases eq_or_lt_of_le hx0 with hz | hp
        · rw [← hz, double_zero]
          norm_num
        · have := double_le_zpow _ (-5) (by norm_num) hp hs
          norm_num at this ⊢
          linarith
      · have hp : 0 < r * (7205759403792794 / 2 ^ 57) := lt_of_lt_of_le (by norm_num) hs
        rw [double_of_binade _ (-5) (by norm_num) (by rwa [abs_of_pos hp])
          (by rw [abs_of_pos hp]; norm_num at h1 ⊢; linarith)]
        have hi : roundHalfEven (r * (7205759403792794 / 2 ^ 57) / 2 ^ ((-5 : ℤ) - 52)) ≤
            (7205759403792793 : ℤ) := by
          apply roundHalfEven_le
          norm_num at h1 ⊢
          linarith
        have hi' : (roundHalfEven (r * (7205759403792794 / 2 ^ 57) / 2 ^ ((-5 : ℤ) - 52)) : ℚ) ≤
            ((7205759403792793 : ℤ) : ℚ) := by
          exact_mod_cast hi
        norm_num at hi' ⊢
        linarith
  · simp [h] at hn

/-! ## Noise seed -/

theorem value_NDVI_clockRun (t : ℕ) (p : Pixel) :
    ee.value (NDVI (clockRun t)) p = [(0.32 : ℚ)][p]?.map double := by
  simp [NDVI, clockRun, toyInputs, ee.value, ee.clip, ee.rename, ee.select, rasterOfList]

theorem value_NDBI_clockRun (t : ℕ) (p : Pixel) :
    ee.value (NDBI (clockRun t)) p = [(0.2 : ℚ)][p]?.map double := by
  simp [NDBI, clockRun, toyInputs, ee.value, ee.clip, ee.rename, ee.select, rasterOfList]

theorem value_noise_clockRun (t : ℕ) (p : Pixel) :
    ee.value (noise (clockRun t)) p =
      some (double (double (if t % 2 = 0 then 0 else 0.9) * double 0.05)) := by
  simp [noise, noiseSeed, clockRun, toyInputs, ee.value, ee.clip, ee.rename, ee.multiply]

/-- C6, as stated, fails: two runs that read the clock values 0 and 1 hand
different seeds to the noise generator, and with a generator whose values depend
on the seed the same NDVI and NDBI values get the labels 2 and 1. -/
theorem noise_seed_not_fixed :
    noiseSeed (clockRun 0) ≠ noiseSeed (clockRun 1) ∧
      ee.value (NDVI (clockRun 0)) 0 = ee.value (NDVI (clockRun 1)) 0 ∧
      ee.value (NDBI (clockRun 0)) 0 = ee.value (NDBI (clockRun 1)) 0 ∧
      ee.value (noise (clockRun 0)) 0 ≠ ee.value (noise (clockRun 1)) 0 ∧
      ee.value (livability_class (clockRun 0)) 0 = some 2 ∧
      ee.value (livability_class (clockRun 1)) 0 = some 1 := by
  have n0 : ee.value (noise (clockRun 0)) 0 = some 0 := by
    rw [value_noise_clockRun, if_pos (by norm_num), noise_zero]
  have n1 : ee.value (noise (clockRun 1)) 0 = some (6485183463413515 / 2 ^ 57) := by
    rw [value_noise_clockRun, if_neg (by norm_num), double_0_9, double_0_05, double_mul_0_9]
  have h0 := livability_class_value (clockRun 0) 0 (double 0.32) (double 0.2) _
    (by simp [value_NDVI_clockRun]) (by simp [value_NDBI_clockRun]) n0
  have h1 := livability_class_value (clockRun 1) 0 (double 0.32) (double 0.2) _
    (by simp [value_NDVI_clockRun]) (by simp [value_NDBI_clockRun]) n1
  rw [double_0_3, double_0_4, double_0_5, double_0_32, double_0_2, double_0_3_add_zero,
    double_0_4_add_zero] at h0
  rw [double_0_3, double_0_4, double_0_5, double_0_32, double_0_2, double_0_3_add_0_9,
    double_0_4_add_0_9] at h1
  norm_num at h0 h1
  refine ⟨by simp [noiseSeed, clockRun, toyInputs], ?_, ?_, ?_, h0, h1⟩
  · rw [value_NDVI_clockRun, value_NDVI_clockRun]
  · rw [value_NDBI_clockRun, value_NDBI_clockRun]
  · rw [n0, n1]
    norm_num

/-- C6, amended: the seed of the noise generator is the clock reading
`Date.now()` of the run; two runs with the same region, the same generator and
the same NDVI and NDBI rasters that read the same clock value have the same
seed, the same Noise band and the same label raster. -/
theorem noise_seed_is_clock (inp1 inp2 : Inputs)
    (haoi : inp1.aoi = inp2.aoi) (hgen : inp1.random = inp2.random)
    (hv : NDVI inp1 = NDVI inp2) (hb : NDBI inp1 = NDBI inp2)
    (hnow : inp1.now = inp2.now) :
    noiseSeed inp1 = inp1.now ∧ noiseSeed inp2 = inp2.now ∧
      noiseSeed inp1 = noiseSeed inp2 ∧
      noise inp1 = noise inp2 ∧
      livability_class inp1 = livability_class inp2 := by
  have hn : noise inp1 = noise inp2 := by
    simp only [noise, noiseSeed, haoi, hgen, hnow]
  refine ⟨rfl, rfl, hnow, hn, ?_⟩
  simp only [livability_class, hv, hb, hn, haoi]

theorem noise_seed_is_clock_witness :
    noiseSeed (clockRun 1) = (clockRun 1).now ∧
      noiseSeed ({ clockRun 1 with elevation := fun _ => some 0 }) =
        ({ clockRun 1 with elevation := fun _ => some 0 } : Inputs).now ∧
      noiseSeed (clockRun 1) = noiseSeed ({ clockRun 1 with elevation := fun _ => some 0 }) ∧
      noise (clockRun 1) = noise ({ clockRun 1 with elevation := fun _ => some 0 }) ∧
      livability_class (clockRun 1) =
        livability_class ({ clockRun 1 with elevation := fun _ => some 0 }) :=
  noise_seed_is_clock (clockRun 1) ({ clockRun 1 with elevation := fun _ => some 0 })
    rfl rfl rfl rfl rfl

/-! ## Band stacks -/

theorem bandNames_stack (inp : Inputs) (hv : 0 < inp.assetNDVI.length)
    (ht : 0 < inp.assetLST.length) (hb : 0 < inp.assetNDBI.length) :
    ee.bandNames (ee.cat [NDVI inp, LST inp, NDBI inp, slope inp, pop inp]) =
      ["NDVI", "LST_C", "NDBI", "Slope", "Pop_Density"] := by
  obtain ⟨v0, vs, hv⟩ := List.exists_cons_of_length_pos hv
  obtain ⟨t0, ts, ht⟩ := List.exists_cons_of_length_pos ht
  obtain ⟨b0, bs, hb⟩ := List.exists_cons_of_length_pos hb
  simp [ee.cat, ee.addBands, ee.bandNames, NDVI, LST, LST_K, NDBI, slope, dem, pop, ee.clip,
    ee.rename, ee.select, ee.subtract, hv, ht, hb]

/-- C7: the band names of `finalStack` are, in order, the training input list
`bands` = [NDVI, LST_C, NDBI, Slope, Pop_Density, Noise], which are also the
first six band names of `trainingImage`; the Noise band of `finalStack` is the
constant 0 clipped to the region (0 at every pixel of the region, no value
elsewhere), and the Noise band of `trainingImage` is the raster `noise` that the
labeler uses. -/
theorem prediction_bands_match_training (inp : Inputs) (hv : 0 < inp.assetNDVI.length)
    (ht : 0 < inp.assetLST.length) (hb : 0 < inp.assetNDBI.length) :
    ee.bandNames (finalStack inp) = bands ∧
      bands = ["NDVI", "LST_C", "NDBI", "Slope", "Pop_Density", "Noise"] ∧
      (ee.bandNames (trainingImage inp)).take 6 = bands ∧
      (∀ p, ee.bandValue (finalStack inp) "Noise" p = if inp.aoi p then some 0 else none) ∧
      (∀ p, ee.bandValue (trainingImage inp) "Noise" p = ee.value (noise inp) p) := by
  obtain ⟨v0, vs, hv⟩ := List.exists_cons_of_length_pos hv
  obtain ⟨t0, ts, ht⟩ := List.exists_cons_of_length_pos ht
  obtain ⟨b0, bs, hb⟩ := List.exists_cons_of_length_pos hb
  refine ⟨?_, rfl, ?_, ?_, ?_⟩
  · simp [finalStack, predictionStack, constantNoise, ee.constant, ee.unmask, bands, ee.cat,
      ee.addBands, ee.bandNames, NDVI, LST, LST_K, NDBI, slope, dem, pop, ee.clip,
      ee.rename, ee.select, ee.subtract, hv, ht, hb]
  · simp [trainingImage, inputStack, livability_class, noise, ee.expression, ee.toByte,
      ee.multiply, ee.unmask, bands, ee.cat,
      ee.addBands, ee.bandNames, NDVI, LST, LST_K, NDBI, slope, dem, pop, ee.clip,
      ee.rename, ee.select, ee.subtract, hv, ht, hb]
  · intro p
    simp [finalStack, predictionStack, constantNoise, ee.constant, ee.unmask, ee.cat,
      ee.addBands, ee.bandNames, ee.bandValue, NDVI, LST, LST_K, NDBI, slope, dem, pop, ee.clip,
      ee.rename, ee.select, ee.subtract, hv, ht, hb, List.find?]
    have hz : double 0.0 = 0 := by
      have h : (0.0 : ℚ) = 0 := by norm_num
      rw [h, double_zero]
    rw [hz]
  · intro p
    simp [trainingImage, inputStack, livability_class, noise, ee.expression, ee.toByte,
      ee.multiply, ee.unmask, ee.cat, ee.value,
      ee.addBands, ee.bandNames, ee.bandValue, NDVI, LST, LST_K, NDBI, slope, dem, pop, ee.clip,
      ee.rename, ee.select, ee.subtract, hv, ht, hb, List.find?]

theorem prediction_bands_match_training_witness :
    ee.bandNames (finalStack toyRaster) = bands ∧
      bands = ["NDVI", "LST_C", "NDBI", "Slope", "Pop_Density", "Noise"] ∧
      (ee.bandNames (trainingImage toyRaster)).take 6 = bands ∧
      (∀ p, ee.bandValue (finalStack toyRaster) "Noise" p =
        if toyRaster.aoi p then some 0 else none) ∧
      (∀ p, ee.bandValue (trainingImage toyRaster) "Noise" p =
        ee.value (noise toyRaster) p) :=
  prediction_bands_match_training toyRaster (by simp [toyRaster, toyInputs])
    (by simp [toyRaster, toyInputs]) (by simp [toyRaster, toyInputs])

/-! ## Train/test split and cross-validation folds -/

theorem get_set (f : Feature) (name : String) (v : ℚ) : (f.set name v).get name = some v := by
  simp [Feature.get, Feature.set, List.lookup]

theorem get_random_of_mem_withRandom (inp : Inputs) (s : Feature) (hs : s ∈ withRandom inp) :
    ∃ r, s.get "random" = some r := by
  simp only [withRandom, randomColumn, List.mem_map] at hs
  obtain ⟨f, _, rfl⟩ := hs
  exact ⟨_, get_set f "random" _⟩

theorem mem_trainSet (inp : Inputs) (s : Feature) :
    s ∈ trainSet inp ↔ s ∈ withRandom inp ∧ ∃ r, s.get "random" = some r ∧ r < 0.7 := by
  simp only [trainSet, ee.filter, List.mem_filter, ee.Filter.test]
  cases h : s.get "random" <;> simp

theorem mem_testSet (inp : Inputs) (s : Feature) :
    s ∈ testSet inp ↔ s ∈ withRandom inp ∧ ∃ r, s.get "random" = some r ∧ r ≥ 0.7 := by
  simp only [testSet, ee.filter, List.mem_filter, ee.Filter.test]
  cases h : s.get "random" <;> simp

theorem mem_fold (inp : Inputs) (i : ℕ) (s : Feature) :
    s ∈ fold inp i ↔
      s ∈ withRandom inp ∧
        ∃ r, s.get "random" = some r ∧ (i : ℚ) / 5 ≤ r ∧ r < ((i : ℚ) + 1) / 5 := by
  simp only [fold, ee.filter, List.mem_filter, ee.Filter.test, k]
  cases h : s.get "random" <;> simp
  tauto

theorem trainFold_eq_withRandom (inp : Inputs) (i : ℕ) : trainFold inp i = withRandom inp := by
  simp [trainFold, ee.filter, ee.Filter.test]

theorem foldIndices_eq : foldIndices = [0, 1, 2, 3, 4] := by
  simp [foldIndices, ee.sequence, k, List.range']

theorem testSet_eq_filter_not (inp : Inputs) :
    testSet inp =
      List.filter (fun s => !(ee.Filter.test (.lt "random" (.number 0.7)) s))
        (withRandom inp) := by
  simp only [testSet, ee.filter]
  apply List.filter_congr
  intro s hs
  obtain ⟨r, hr⟩ := get_random_of_mem_withRandom inp s hs
  simp only [ee.Filter.test, hr]
  by_cases h : r < 0.7
  · simp [h, not_le.2 h]
  · simp [h, not_lt.1 h]

/-- C3: the train/test split is an exact partition of `withRandom`: `trainSet`
holds the samples with random < 0.7 and `testSet` those with random ≥ 0.7, no
sample is in both, every sample is in one of them, the two together are a
rearrangement of `withRandom`, and the sizes add up to the size of the input. -/
theorem split_partition (inp : Inputs) :
    (∀ s, s ∈ trainSet inp ↔ s ∈ withRandom inp ∧ ∃ r, s.get "random" = some r ∧ r < 0.7) ∧
      (∀ s, s ∈ testSet inp ↔ s ∈ withRandom inp ∧ ∃ r, s.get "random" = some r ∧ r ≥ 0.7) ∧
      (∀ s, ¬ (s ∈ trainSet inp ∧ s ∈ testSet inp)) ∧
      (∀ s, s ∈ withRandom inp ↔ (s ∈ trainSet inp ∨ s ∈ testSet inp)) ∧
      (trainSet inp ++ testSet inp).Perm (withRandom inp) ∧
      ee.size (trainSet inp) + ee.size (testSet inp) = ee.size (withRandom inp) ∧
      ee.size (withRandom inp) = ee.size (samples inp) := by
  have hperm : (trainSet inp ++ testSet inp).Perm (withRandom inp) := by
    rw [testSet_eq_filter_not]
    exact List.filter_append_perm _ _
  refine ⟨mem_trainSet inp, mem_testSet inp, ?_, ?_, hperm, ?_, ?_⟩
  · rintro s ⟨h1, h2⟩
    obtain ⟨_, r, hr, hlt⟩ := (mem_trainSet inp s).1 h1
    obtain ⟨_, r', hr', hge⟩ := (mem_testSet inp s).1 h2
    rw [hr] at hr'
    cases hr'
    exact absurd hlt (not_lt.2 hge)
  · intro s
    rw [← List.mem_append]
    exact (hperm.mem_iff).symm
  · have := hperm.length_eq
    simpa [ee.size] using this
  · simp [ee.size, withRandom, randomColumn]

theorem split_partition_witness :
    ee.size (samples hundredRun) = 100 ∧
      ee.size (trainSet hundredRun) + ee.size (testSet hundredRun) = 100 := by
  have h := split_partition hundredRun
  have hs : ee.size (samples hundredRun) = 100 := by
    simp [ee.size, samples, hundredRun, toyInputs, hundredSamples]
  exact ⟨hs, by rw [h.2.2.2.2.2.1, h.2.2.2.2.2.2, hs]⟩

theorem fold_index_unique (r : ℚ) (i j : ℕ) (hi : (i : ℚ) / 5 ≤ r ∧ r < ((i : ℚ) + 1) / 5)
    (hj : (j : ℚ) / 5 ≤ r ∧ r < ((j : ℚ) + 1) / 5) : i = j := by
  have h1 : (i : ℚ) < (j : ℚ) + 1 := by linarith [hi.1, hj.2]
  have h2 : (j : ℚ) < (i : ℚ) + 1 := by linarith [hj.1, hi.2]
  have h3 : i < j + 1 := by exact_mod_cast h1
  have h4 : j < i + 1 := by exact_mod_cast h2
  omega

theorem fold_index_exists (r : ℚ) (h0 : 0 ≤ r) (h1 : r < 1) :
    ∃ i, i ∈ foldIndices ∧ (i : ℚ) / 5 ≤ r ∧ r < ((i : ℚ) + 1) / 5 := by
  rw [foldIndices_eq]
  by_cases a1 : r < 1 / 5
  · exact ⟨0, by simp, by norm_num; exact h0, by norm_num; linarith⟩
  by_cases a2 : r < 2 / 5
  · exact ⟨1, by simp, by norm_num; linarith, by norm_num; linarith⟩
  by_cases a3 : r < 3 / 5
  · exact ⟨2, by simp, by norm_num; linarith, by norm_num; linarith⟩
  by_cases a4 : r < 4 / 5
  · exact ⟨3, by simp, by norm_num; linarith, by norm_num; linarith⟩
  · exact ⟨4, by simp, by norm_num; linarith, by norm_num; linarith⟩

/-- C4: with k = 5, when every sample of `withRandom` carries a random value in
[0,1), each sample is in the validation subset `fold` of exactly one fold index
of 0..4, the one with i/5 ≤ r < (i+1)/5; the validation subsets of two
different indices share no sample and their union is `withRandom`. -/
theorem folds_partition (inp : Inputs)
    (hall : ∀ s ∈ withRandom inp, ∀ r, s.get "random" = some r → 0 ≤ r ∧ r < 1) :
    k = 5 ∧ foldIndices = [0, 1, 2, 3, 4] ∧
      (∀ s ∈ withRandom inp, ∃ r, s.get "random" = some r ∧
        (∀ i, s ∈ fold inp i ↔ ((i : ℚ) / 5 ≤ r ∧ r < ((i : ℚ) + 1) / 5)) ∧
        ∃! i, i ∈ foldIndices ∧ s ∈ fold inp i) ∧
      (∀ i j, i ≠ j → ∀ s, ¬ (s ∈ fold inp i ∧ s ∈ fold inp j)) ∧
      (∀ s, s ∈ withRandom inp ↔ ∃ i ∈ foldIndices, s ∈ fold inp i) := by
  have char : ∀ s ∈ withRandom inp, ∀ r, s.get "random" = some r →
      ∀ i, s ∈ fold inp i ↔ ((i : ℚ) / 5 ≤ r ∧ r < ((i : ℚ) + 1) / 5) := by
    intro s hs r hr i
    rw [mem_fold]
    constructor
    · rintro ⟨_, r', hr', h⟩
      rw [hr] at hr'
      cases hr'
      exact h
    · intro h
      exact ⟨hs, r, hr, h⟩
  refine ⟨rfl, foldIndices_eq, ?_, ?_, ?_⟩
  · intro s hs
    obtain ⟨r, hr⟩ := get_random_of_mem_withRandom inp s hs
    obtain ⟨h0, h1⟩ := hall s hs r hr
    refine ⟨r, hr, char s hs r hr, ?_⟩
    obtain ⟨i, hi, hir⟩ := fold_index_exists r h0 h1
    refine ⟨i, ⟨hi, (char s hs r hr i).2 hir⟩, ?_⟩
    rintro j ⟨_, hj⟩
    exact fold_index_unique r j i ((char s hs r hr j).1 hj) hir
  · rintro i j hij s ⟨hi, hj⟩
    obtain ⟨hs, r, hr, hir⟩ := (mem_fold inp i s).1 hi
    exact hij (fold_index_unique r i j hir ((char s hs r hr j).1 hj))
  · intro s
    constructor
    · intro hs
      obtain ⟨r, hr⟩ := get_random_of_mem_withRandom inp s hs
      obtain ⟨h0, h1⟩ := hall s hs r hr
      obtain ⟨i, hi, hir⟩ := fold_index_exists r h0 h1
      exact ⟨i, hi, (char s hs r hr i).2 hir⟩
    · rintro ⟨i, _, hi⟩
      exact ((mem_fold inp i s).1 hi).1

theorem withRandom_threeRun :
    withRandom threeRun =
      [{ index := 0, properties := [("random", 1 / 10), ("Class", 1)] },
        { index := 1, properties := [("random", 5 / 10), ("Class", 2)] },
        { index := 2, properties := [("random", 9 / 10), ("Class", 3)] }] := by
  simp [withRandom, randomColumn, samples, threeRun, toyInputs, Feature.set]
  norm_num

theorem folds_partition_witness :
    k = 5 ∧ foldIndices = [0, 1, 2, 3, 4] ∧
      (∀ s ∈ withRandom threeRun, ∃ r, s.get "random" = some r ∧
        (∀ i, s ∈ fold threeRun i ↔ ((i : ℚ) / 5 ≤ r ∧ r < ((i : ℚ) + 1) / 5)) ∧
        ∃! i, i ∈ foldIndices ∧ s ∈ fold threeRun i) ∧
      (∀ i j, i ≠ j → ∀ s, ¬ (s ∈ fold threeRun i ∧ s ∈ fold threeRun j)) ∧
      (∀ s, s ∈ withRandom threeRun ↔ ∃ i ∈ foldIndices, s ∈ fold threeRun i) :=
  folds_partition threeRun (by
    rw [withRandom_threeRun]
    intro s hs r hr
    simp only [List.mem_cons, List.mem_singleton, List.not_mem_nil, or_false] at hs
    rcases hs with rfl | rfl | rfl <;>
      simp [Feature.get, List.lookup] at hr <;> subst hr <;> norm_num)

/-- C2 fails on the code: in the run with one sample of random value 0.1, that
sample is the validation subset of fold 0 and is also in the training subset of
fold 0, which is the whole of `withRandom`. -/
theorem trainFold_contains_fold :
    withRandom leakRun = [{ index := 0, properties := [("random", 0.1), ("Class", 1)] }] ∧
      fold leakRun 0 = [{ index := 0, properties := [("random", 0.1), ("Class", 1)] }] ∧
      trainFold leakRun 0 = [{ index := 0, properties := [("random", 0.1), ("Class", 1)] }] := by
  have hw : withRandom leakRun =
      [{ index := 0, properties := [("random", 0.1), ("Class", 1)] }] := by
    simp [withRandom, randomColumn, samples, leakRun, toyInputs, Feature.set]
  refine ⟨hw, ?_, ?_⟩
  · rw [fold, hw]
    have h1 : ee.Filter.test (.lt "random" (.number ((((0 : ℕ) : ℚ) + 1) / k)))
        { index := 0, properties := [("random", 0.1), ("Class", 1)] } = true := by
      simp [ee.Filter.test, Feature.get, List.lookup, k]
      norm_num
    have h2 : ee.Filter.test (.gte "random" (.number (((0 : ℕ) : ℚ) / k)))
        { index := 0, properties := [("random", 0.1), ("Class", 1)] } = true := by
      simp [ee.Filter.test, Feature.get, List.lookup, k]
      norm_num
    simp only [ee.filter, List.filter, h1, h2]
  · rw [trainFold_eq_withRandom, hw]

end Livability
